import Mathlib

/-!
Shallow embedding of the tracer core of `dash-xd/tracer`
(`src/Tracer.js`, `src/Tracer.go`); the context-threading variant
`src/tracer.go` shares the same `Span` record, id generator and
`EndSpan` mutation.

Modelling conventions:
- JS objects used as maps (`this.traces`) become insertion-ordered
  association lists `List (String × List Span)`; `obj[k]` becomes
  `List.lookup`.
- The clock (`Date.now()` / `time.Now()`) and the secure random source
  (`crypto.randomBytes(16)` / `crypto/rand`) are external capabilities;
  their outputs are passed as explicit arguments (`now`, fresh ids,
  raw bytes).
- A thrown JS `TypeError` (resp. a Go panic) is modelled as
  `Except.error`.
- JS aliasing (the span object returned by `startSpan` is the same
  object stored in the registry, and `endSpan` mutates it in place) is
  modelled by identifying a span by its `spanId` and updating every
  stored copy with that id; `spanId`s are unique in every reachable
  state, so this coincides with the source's in-place mutation.
-/

/-- The span record of `Tracer.js` lines 46-55 / the `Span` struct of
`Tracer.go` lines 12-21.  `parentSpanId` is `none` for a root span
(JS stores `null`; Go stores `""` with `omitempty`), `endTime` is
`none` until the span is ended, timestamps are naturals (epoch
milliseconds / nanoseconds), `attributes` is a string-keyed map
modelled as an association list in JS object key order. -/
structure Span where
  traceId : String
  spanId : String
  parentSpanId : Option String
  name : String
  startTime : Nat
  endTime : Option Nat
  attributes : List (String × String)
  status : String
  deriving DecidableEq, Repr

/-- The `Tracer` class state: `serviceName` (constructor argument,
`Tracer.js` line 19) and the `traces` map from trace identifier to the
ordered array of its spans (`Tracer.js` line 21, `Tracer.go` line 25),
modelled as an insertion-ordered association list, initially empty. -/
structure Tracer where
  serviceName : String
  traces : List (String × List Span)
  deriving DecidableEq, Repr

/-- `new Tracer(serviceName)` / `NewTracer(serviceName)`: empty traces map. -/
def newTracer (serviceName : String) : Tracer :=
  { serviceName := serviceName, traces := [] }

/-- The sixteen lowercase hexadecimal digit characters. -/
def hexDigits : List Char :=
  "0123456789abcdef".toList

/-- Value of one hex nibble (0..15) as a lowercase character.
For the in-range nibbles produced from bytes this is exact; the
default is never reached on byte input. -/
def hexDigit (n : Nat) : Char :=
  hexDigits.getD n '0'

/-- One byte rendered as two lowercase hex characters, high nibble
first — the per-byte step of `Buffer.toString('hex')` /
`hex.EncodeToString`. -/
def byteToHexChars (b : Nat) : List Char :=
  [hexDigit (b / 16), hexDigit (b % 16)]

/-- Lowercase hexadecimal encoding of a byte sequence
(`Buffer.toString('hex')` in JS, `hex.EncodeToString` in Go). -/
def hexEncode (bytes : List Nat) : String :=
  String.mk (bytes.foldr (fun b acc => byteToHexChars b ++ acc) [])

/-- `generateSecureId` (`Tracer.js` lines 30-32) /`generateSecureID`
(`Tracer.go` lines 35-42): hex-encode the 16 bytes supplied by the
cryptographically secure random source.  The bytes are an input here
because the random source is an external capability. -/
def generateSecureId (bytes : List Nat) : String :=
  hexEncode bytes

/-- JS truthiness of the `parentSpanId` argument at `Tracer.js` line 42
(`parentSpanId ? … : …`): `null`/absent and the empty string are falsy. -/
def parentTruthy : Option String → Bool
  | none => false
  | some s => !(s == "")

/-- Trace-id resolution of `Tracer.js` line 42:
`parentSpanId ? this.traces[parentSpanId][0].traceId : this.generateSecureId()`.
A truthy `parentSpanId` indexes the traces map directly; when the key is
absent the subscript `[0]` of `undefined` throws a `TypeError`
(`Tracer.go` line 47 panics on the nil slice the same way). -/
def resolveTraceId (traces : List (String × List Span))
    (parentSpanId : Option String) (freshTraceId : String) : Except String String :=
  if parentTruthy parentSpanId then
    match traces.lookup (parentSpanId.getD "") with
    | some (first :: _) => Except.ok first.traceId
    | some [] => Except.error "TypeError: cannot read properties of undefined"
    | none => Except.error "TypeError: cannot read properties of undefined"
  else
    Except.ok freshTraceId

/-- `Tracer.js` lines 57-60: create the array for a new trace key
(appended in insertion order, as a JS object key) and push the span. -/
def pushSpan (traces : List (String × List Span)) (k : String) (sp : Span) :
    List (String × List Span) :=
  if (traces.lookup k).isSome then
    traces.map (fun kv => if kv.1 == k then (kv.1, kv.2 ++ [sp]) else kv)
  else
    traces ++ [(k, [sp])]

/-- `Tracer.startSpan(name, parentSpanId)` (`Tracer.js` lines 41-63,
`Tracer.go` lines 44-75).  `freshTraceId` and `freshSpanId` are the
values `generateSecureId` returns for this call, `now` the clock
reading.  Returns the new span together with the updated registry, or
the thrown error. -/
def startSpan (t : Tracer) (name : String) (parentSpanId : Option String)
    (freshTraceId freshSpanId : String) (now : Nat) : Except String (Span × Tracer) :=
  match resolveTraceId t.traces parentSpanId freshTraceId with
  | Except.error e => Except.error e
  | Except.ok traceId =>
    let span : Span :=
      { traceId := traceId,
        spanId := freshSpanId,
        parentSpanId := parentSpanId,
        name := name,
        startTime := now,
        endTime := none,
        attributes := [],
        status := "UNSET" }
    Except.ok (span, { t with traces := pushSpan t.traces traceId span })

/-- One key-value assignment into a JS-object-as-map: overwrite in
place if the key exists, else append (JS object update order). -/
def setAttr (m : List (String × String)) (k v : String) : List (String × String) :=
  if m.any (fun p => p.1 == k) then
    m.map (fun p => if p.1 == k then (k, v) else p)
  else
    m ++ [(k, v)]

/-- The spread merge `{ ...span.attributes, ...attributes }` of
`Tracer.js` line 75 / the `for k, v := range attributes` loop of
`Tracer.go` lines 81-83: existing entries keep their position, later
keys overwrite, new keys are appended. -/
def mergeAttrs (old news : List (String × String)) : List (String × String) :=
  news.foldl (fun acc p => setAttr acc p.1 p.2) old

/-- `Tracer.endSpan(span, status, attributes)` (`Tracer.js` lines 72-76,
`Tracer.go` lines 77-84) acting on the span value: unconditionally set
`endTime` to the clock reading, set `status`, merge the attributes. -/
def endSpan (span : Span) (now : Nat) (status : String)
    (attributes : List (String × String)) : Span :=
  { span with
    endTime := some now,
    status := status,
    attributes := mergeAttrs span.attributes attributes }

/-- `endSpan` as seen through the registry: the JS span object is
aliased by the stored array, so mutating it updates the stored copy.
The span handle is identified by its `spanId`. -/
def endSpanIn (t : Tracer) (spanId : String) (now : Nat) (status : String)
    (attributes : List (String × String)) : Tracer :=
  { t with traces := t.traces.map (fun kv =>
      (kv.1, kv.2.map (fun s =>
        if s.spanId == spanId then endSpan s now status attributes else s))) }

/-- `Tracer.getTrace(traceId)` (`Tracer.js` lines 84-86):
`return this.traces[traceId]` — the stored array, or `undefined`
(`none`) when the key is absent. -/
def getTraceJs (t : Tracer) (traceId : String) : Option (List Span) :=
  t.traces.lookup traceId

/-- `Tracer.GetTrace(traceID)` (`Tracer.go` lines 86-88):
`return t.Traces[traceID]` — a Go map read whose zero value for an
absent key is the nil slice, observationally the empty sequence. -/
def getTraceGo (t : Tracer) (traceId : String) : List Span :=
  (t.traces.lookup traceId).getD []

/-- `Tracer.exportTraces` / `ExportTraces` (`Tracer.js` lines 92-95,
`Tracer.go` lines 90-97) serializes exactly `this.traces` (the
service name is not part of the output).  The console emission and the
JSON text rendering are collaborator I/O outside the embedding; the
exported content is the emitted structure, a pure function of the
traces map. -/
def exportTraces (t : Tracer) : List (String × List Span) :=
  t.traces

/-- One externally driven registry operation, carrying the clock and
random-source inputs consumed by that call. -/
inductive TraceOp
  | start (name : String) (parentSpanId : Option String)
      (freshTraceId freshSpanId : String) (now : Nat)
  | finish (spanId : String) (now : Nat) (status : String)
      (attributes : List (String × String))

/-- Registry state paired with the ghost creation log: every span ever
returned by a successful `startSpan`, in creation order. -/
structure Sys where
  tracer : Tracer
  log : List Span
  deriving DecidableEq, Repr

/-- Execute one operation.  A `startSpan` call that throws (unknown
parent key) leaves the state unchanged: `Tracer.js` line 42 throws
before any mutation.  `finish` applies the `endSpan` mutation through
the registry and to the logged copy of the same span object. -/
def stepSys (s : Sys) (op : TraceOp) : Sys :=
  match op with
  | TraceOp.start name p ftid fsid now =>
    match startSpan s.tracer name p ftid fsid now with
    | Except.ok (sp, t2) => { tracer := t2, log := s.log ++ [sp] }
    | Except.error _ => s
  | TraceOp.finish sid now st attrs =>
    { tracer := endSpanIn s.tracer sid now st attrs
      log := s.log.map (fun sp =>
        if sp.spanId == sid then endSpan sp now st attrs else sp) }

/-- Run a sequence of operations from a fresh tracer. -/
def runOps (serviceName : String) (ops : List TraceOp) : Sys :=
  ops.foldl stepSys { tracer := newTracer serviceName, log := [] }

/-- Invariant tying the registry to the ghost creation log: every trace
key stores exactly the logged spans carrying that trace id, in creation
order, and every present key stores a non-empty sequence. -/
def SysInv (s : Sys) : Prop :=
  ∀ tid : String,
    (getTraceJs s.tracer tid).getD [] = s.log.filter (fun sp => sp.traceId == tid)
    ∧ ∀ l, getTraceJs s.tracer tid = some l → l ≠ []

/-! ### Sample data for witnesses -/

/-- A concrete unended span with one pre-existing attribute. -/
def sampleSpan : Span :=
  { traceId := "t0", spanId := "s0", parentSpanId := none, name := "root",
    startTime := 0, endTime := none, attributes := [("a", "1")], status := "UNSET" }

/-- The span `startSpan` creates for `runOps "svc" [start "root" none "t0" "s0" 0]`. -/
def rootSample : Span :=
  { traceId := "t0", spanId := "s0", parentSpanId := none, name := "root",
    startTime := 0, endTime := none, attributes := [], status := "UNSET" }

/-- Sixteen concrete byte values for the id-generator witness. -/
def sampleBytes : List Nat :=
  [0, 1, 2, 3, 4, 5, 6, 7, 8, 9, 10, 11, 12, 13, 14, 255]

/-! ### Association-list lemmas -/

theorem lookup_cons_pair {β : Type} (a : String) (p : String × β) (l : List (String × β)) :
    List.lookup a (p :: l) = if a = p.1 then some p.2 else List.lookup a l := by
  obtain ⟨k, b⟩ := p
  by_cases h : a = k
  · simp [List.lookup_cons, h]
  · simp [List.lookup_cons, beq_false_of_ne h, h]

theorem lookup_append {β : Type} (a : String) (l1 l2 : List (String × β)) :
    List.lookup a (l1 ++ l2) =
      match List.lookup a l1 with
      | some v => some v
      | none => List.lookup a l2 := by
  induction l1 with
  | nil => simp
  | cons p l ih =>
    obtain ⟨k, b⟩ := p
    by_cases h : a = k
    · simp [List.lookup_cons, h]
    · simp [List.lookup_cons, beq_false_of_ne h, ih]

theorem lookup_eq_none_keys {β : Type} (a : String) (l : List (String × β))
    (h : ∀ p ∈ l, p.1 ≠ a) : List.lookup a l = none := by
  induction l with
  | nil => simp
  | cons p l ih =>
    rw [lookup_cons_pair]
    have hp : p.1 ≠ a := h p (by simp)
    have ha : ¬ a = p.1 := fun hc => hp hc.symm
    simp only [ha, if_false]
    exact ih (fun q hq => h q (by simp [hq]))

theorem lookup_map_snd {β γ : Type} (a : String) (g : β → γ) (l : List (String × β)) :
    List.lookup a (l.map (fun kv => (kv.1, g kv.2))) = (List.lookup a l).map g := by
  induction l with
  | nil => simp
  | cons p l ih =>
    obtain ⟨k, b⟩ := p
    by_cases h : a = k
    · simp [List.lookup_cons, h]
    · simp [List.lookup_cons, beq_false_of_ne h, ih]

theorem lookup_map_update {β : Type} (a k : String) (g : β → β) (l : List (String × β)) :
    List.lookup a (l.map (fun kv => if kv.1 == k then (kv.1, g kv.2) else kv))
      = if a = k then (List.lookup k l).map g else List.lookup a l := by
  induction l with
  | nil => by_cases h : a = k <;> simp [h]
  | cons p l ih =>
    obtain ⟨kk, b⟩ := p
    simp only [beq_iff_eq] at ih ⊢
    by_cases hk : kk = k
    · subst hk
      simp only [List.map_cons, if_pos rfl]
      by_cases ha : a = kk
      · simp [lookup_cons_pair, ha]
      · simp [lookup_cons_pair, ha, ih]
    · simp only [List.map_cons, if_neg hk]
      by_cases hak : a = k
      · subst hak
        have hkne : ¬ a = kk := fun hc => hk hc.symm
        simp [lookup_cons_pair, hkne, hk, ih]
      · by_cases ha : a = kk
        · simp [lookup_cons_pair, ha, hak, hk]
        · simp [lookup_cons_pair, ha, hak, ih, hk]

/-! ### Registry push lemmas -/

theorem lookup_map_push (a k : String) (sp : Span) (l : List (String × List Span)) :
    List.lookup a (l.map (fun kv => if kv.1 == k then (kv.1, kv.2 ++ [sp]) else kv))
      = if a = k then (List.lookup k l).map (fun x => x ++ [sp]) else List.lookup a l :=
  lookup_map_update a k (fun x => x ++ [sp]) l

theorem lookup_pushSpan_self (traces : List (String × List Span)) (k : String) (sp : Span) :
    List.lookup k (pushSpan traces k sp) = some ((List.lookup k traces).getD [] ++ [sp]) := by
  unfold pushSpan
  by_cases h : (List.lookup k traces).isSome
  · obtain ⟨l, hl⟩ := Option.isSome_iff_exists.mp h
    rw [if_pos h, lookup_map_push]
    simp [hl]
  · rw [if_neg h, lookup_append]
    have hnone : List.lookup k traces = none := Option.not_isSome_iff_eq_none.mp h
    simp [hnone, lookup_cons_pair]

theorem lookup_pushSpan_other (traces : List (String × List Span)) (k : String) (sp : Span)
    (a : String) (h : ¬ a = k) :
    List.lookup a (pushSpan traces k sp) = List.lookup a traces := by
  unfold pushSpan
  by_cases hs : (List.lookup k traces).isSome
  · rw [if_pos hs, lookup_map_push, if_neg h]
  · rw [if_neg hs, lookup_append]
    cases hcase : List.lookup a traces with
    | some l => simp [hcase]
    | none => simp [hcase, lookup_cons_pair, h]

/-! ### Attribute merge lemmas -/

theorem any_eq_lookup_isSome (m : List (String × String)) (k : String) :
    m.any (fun p => p.1 == k) = (List.lookup k m).isSome := by
  induction m with
  | nil => simp
  | cons p m ih =>
    obtain ⟨kk, v⟩ := p
    rw [lookup_cons_pair]
    by_cases hk : k = kk
    · simp [hk]
    · have hkk : ¬ kk = k := fun hc => hk hc.symm
      simp [hk, hkk, ← ih]

theorem lookup_setAttr (m : List (String × String)) (k v a : String) :
    List.lookup a (setAttr m k v) = if a = k then some v else List.lookup a m := by
  unfold setAttr
  rw [any_eq_lookup_isSome]
  by_cases h : (List.lookup k m).isSome
  · obtain ⟨w, hw⟩ := Option.isSome_iff_exists.mp h
    rw [if_pos h]
    have hmap : m.map (fun p => if p.1 == k then (k, v) else p)
        = m.map (fun p => if p.1 == k then (p.1, v) else p) := by
      apply List.map_congr_left
      intro p _
      by_cases hpk : p.1 = k
      · simp [hpk]
      · simp [hpk]
    have hupdate : List.lookup a (m.map (fun p => if p.1 == k then (p.1, v) else p))
        = if a = k then (List.lookup k m).map (fun _ => v) else List.lookup a m :=
      lookup_map_update a k (fun _ => v) m
    rw [hmap, hupdate]
    by_cases ha : a = k
    · simp [ha, hw]
    · simp [ha]
  · rw [if_neg h, lookup_append]
    have hnone : List.lookup k m = none := Option.not_isSome_iff_eq_none.mp h
    by_cases ha : a = k
    · subst ha
      simp [hnone, lookup_cons_pair]
    · cases hcase : List.lookup a m with
      | some w => simp [hcase, ha]
      | none => simp [hcase, lookup_cons_pair, ha]

theorem lookup_mergeAttrs (attrs : List (String × String))
    (hnd : (attrs.map Prod.fst).Nodup) (old : List (String × String)) (a : String) :
    List.lookup a (mergeAttrs old attrs) =
      match List.lookup a attrs with
      | some v => some v
      | none => List.lookup a old := by
  revert hnd
  induction attrs generalizing old with
  | nil => intro _; simp [mergeAttrs]
  | cons p rest ih =>
    intro hnd
    obtain ⟨k, v⟩ := p
    simp only [List.map_cons, List.nodup_cons] at hnd
    obtain ⟨hk, hrest⟩ := hnd
    rw [show mergeAttrs old ((k, v) :: rest) = mergeAttrs (setAttr old k v) rest from rfl]
    rw [ih (setAttr old k v) hrest]
    by_cases ha : a = k
    · subst ha
      have hnone : List.lookup a rest = none := by
        apply lookup_eq_none_keys
        intro p hp hpa
        exact hk (hpa ▸ List.mem_map_of_mem Prod.fst hp)
      rw [hnone, lookup_cons_pair, lookup_setAttr]
      simp
    · rw [lookup_cons_pair, if_neg ha, lookup_setAttr]
      cases hcase : List.lookup a rest with
      | some w => simp [hcase]
      | none => simp [hcase, ha]

/-! ### Reachable-state invariant -/

theorem sysInv_init (svc : String) : SysInv { tracer := newTracer svc, log := [] } := by
  intro tid
  constructor
  · simp [getTraceJs, newTracer]
  · intro l hl
    simp [getTraceJs, newTracer] at hl

theorem filter_map_of_pres {α : Type} (p : α → Bool) (f : α → α)
    (hp : ∀ a, p (f a) = p a) (l : List α) :
    (l.map f).filter p = (l.filter p).map f := by
  induction l with
  | nil => rfl
  | cons a l ih =>
    rw [List.map_cons, List.filter_cons, List.filter_cons, hp a]
    cases hpa : p a
    · simp [ih]
    · simp [ih]

theorem traceId_endIf (sid : String) (now : Nat) (st : String)
    (attrs : List (String × String)) (sp : Span) :
    (if sp.spanId == sid then endSpan sp now st attrs else sp).traceId = sp.traceId := by
  by_cases h : sp.spanId == sid <;> simp [h, endSpan]

theorem filter_traceId_map_endIf (l : List Span) (sid : String) (now : Nat) (st : String)
    (attrs : List (String × String)) (tid : String) :
    (l.map (fun sp => if sp.spanId == sid then endSpan sp now st attrs else sp)).filter
        (fun sp => sp.traceId == tid)
      = (l.filter (fun sp => sp.traceId == tid)).map
        (fun sp => if sp.spanId == sid then endSpan sp now st attrs else sp) :=
  filter_map_of_pres (fun sp => sp.traceId == tid)
    (fun sp => if sp.spanId == sid then endSpan sp now st attrs else sp)
    (fun sp => by simp only [traceId_endIf]) l

theorem sysInv_pushSpan (t : Tracer) (log : List Span) (h : SysInv ⟨t, log⟩)
    (sp : Span) (rid : String) (hsp : sp.traceId = rid) :
    SysInv ⟨{ t with traces := pushSpan t.traces rid sp }, log ++ [sp]⟩ := by
  intro tid
  constructor
  · show (List.lookup tid (pushSpan t.traces rid sp)).getD [] = _
    by_cases htid : tid = rid
    · subst htid
      rw [lookup_pushSpan_self]
      have h1 := (h tid).1
      simp only [getTraceJs] at h1
      simp [List.filter_append, h1, hsp]
    · rw [lookup_pushSpan_other _ _ _ _ htid]
      have h1 := (h tid).1
      simp only [getTraceJs] at h1
      have hne : ¬ sp.traceId = tid := by rw [hsp]; exact fun hc => htid hc.symm
      simp [List.filter_append, h1, hne]
  · intro l hl
    simp only [getTraceJs] at hl
    by_cases htid : tid = rid
    · subst htid
      rw [lookup_pushSpan_self] at hl
      simp only [Option.some.injEq] at hl
      rw [← hl]
      simp
    · rw [lookup_pushSpan_other _ _ _ _ htid] at hl
      exact (h tid).2 l (by simpa [getTraceJs] using hl)

theorem sysInv_step (s : Sys) (op : TraceOp) (h : SysInv s) : SysInv (stepSys s op) := by
  cases op with
  | start name p ftid fsid now =>
    cases hres : startSpan s.tracer name p ftid fsid now with
    | error e => simpa [stepSys, hres] using h
    | ok pr =>
      obtain ⟨sp, t2⟩ := pr
      have hstep : stepSys s (TraceOp.start name p ftid fsid now)
          = { tracer := t2, log := s.log ++ [sp] } := by
        simp [stepSys, hres]
      rw [hstep]
      unfold startSpan at hres
      cases hrid : resolveTraceId s.tracer.traces p ftid with
      | error e => rw [hrid] at hres; exact absurd hres (by simp)
      | ok rid =>
        rw [hrid] at hres
        simp only [Except.ok.injEq, Prod.mk.injEq] at hres
        obtain ⟨hsp, ht2⟩ := hres
        subst hsp
        subst ht2
        exact sysInv_pushSpan s.tracer s.log h _ rid rfl
  | finish sid now st attrs =>
    intro tid
    have hlook : getTraceJs (stepSys s (TraceOp.finish sid now st attrs)).tracer tid
        = (List.lookup tid s.tracer.traces).map
          (List.map (fun sp => if sp.spanId == sid then endSpan sp now st attrs else sp)) := by
      simp only [stepSys, getTraceJs, endSpanIn]
      exact lookup_map_snd tid
        (List.map (fun sp => if sp.spanId == sid then endSpan sp now st attrs else sp))
        s.tracer.traces
    have hlog : (stepSys s (TraceOp.finish sid now st attrs)).log
        = s.log.map (fun sp => if sp.spanId == sid then endSpan sp now st attrs else sp) := rfl
    have h1 := (h tid).1
    have h2 := (h tid).2
    simp only [getTraceJs] at h1
    constructor
    · rw [hlook, hlog, filter_traceId_map_endIf, ← h1]
      cases hcase : List.lookup tid s.tracer.traces with
      | some l => simp [hcase]
      | none => simp [hcase]
    · intro l hl
      rw [hlook] at hl
      cases hcase : List.lookup tid s.tracer.traces with
      | none => rw [hcase] at hl; exact absurd hl (by simp)
      | some l0 =>
        rw [hcase] at hl
        simp only [Option.map_some', Option.some.injEq] at hl
        have h0 : l0 ≠ [] := h2 l0 (by simpa [getTraceJs] using hcase)
        rw [← hl]
        simp [h0]

theorem sysInv_foldl (ops : List TraceOp) (s : Sys) (h : SysInv s) :
    SysInv (ops.foldl stepSys s) := by
  induction ops generalizing s with
  | nil => exact h
  | cons op ops ih => exact ih _ (sysInv_step s op h)

theorem sysInv_runOps (svc : String) (ops : List TraceOp) : SysInv (runOps svc ops) :=
  sysInv_foldl ops _ (sysInv_init svc)

/-! ### Hex encoding lemmas -/

theorem hexDigit_mem (n : Nat) : hexDigit n ∈ hexDigits := by
  unfold hexDigit
  by_cases h : n < hexDigits.length
  · have h16 : n < 16 := by
      have hlen : hexDigits.length = 16 := rfl
      rw [hlen] at h
      exact h
    interval_cases n <;> decide
  · have h16 : hexDigits.length ≤ n := Nat.le_of_not_lt h
    rw [List.getD_eq_default _ _ h16]
    decide

theorem length_hexEncode (bytes : List Nat) :
    (hexEncode bytes).length = 2 * bytes.length := by
  show (bytes.foldr (fun b acc => byteToHexChars b ++ acc) []).length = 2 * bytes.length
  induction bytes with
  | nil => rfl
  | cons b bs ih =>
    rw [List.foldr_cons, List.length_append, ih]
    simp only [byteToHexChars, List.length_cons, List.length_nil, List.length_cons]
    omega

theorem mem_foldr_hex (bytes : List Nat) (c : Char)
    (hc : c ∈ bytes.foldr (fun b acc => byteToHexChars b ++ acc) []) :
    c ∈ hexDigits := by
  induction bytes with
  | nil => simp at hc
  | cons b bs ih =>
    simp only [List.foldr_cons, List.mem_append] at hc
    rcases hc with hc | hc
    · simp only [byteToHexChars, List.mem_cons, List.not_mem_nil, or_false] at hc
      rcases hc with rfl | rfl
      · exact hexDigit_mem _
      · exact hexDigit_mem _
    · exact ih hc

/-! ### Service-name independence -/

theorem stepSys_indep (s1 s2 : Sys) (op : TraceOp)
    (ht : s1.tracer.traces = s2.tracer.traces) (hl : s1.log = s2.log) :
    (stepSys s1 op).tracer.traces = (stepSys s2 op).tracer.traces
      ∧ (stepSys s1 op).log = (stepSys s2 op).log := by
  cases op with
  | start name p ftid fsid now =>
    simp only [stepSys, startSpan]
    rw [ht]
    cases hr : resolveTraceId s2.tracer.traces p ftid with
    | error e => exact ⟨ht, hl⟩
    | ok rid => exact ⟨by simp [ht], by simp [hl]⟩
  | finish sid now st attrs =>
    constructor
    · show (s1.tracer.traces.map _) = (s2.tracer.traces.map _)
      rw [ht]
    · show (s1.log.map _) = (s2.log.map _)
      rw [hl]

theorem foldl_indep (ops : List TraceOp) (s1 s2 : Sys)
    (ht : s1.tracer.traces = s2.tracer.traces) (hl : s1.log = s2.log) :
    (ops.foldl stepSys s1).tracer.traces = (ops.foldl stepSys s2).tracer.traces
      ∧ (ops.foldl stepSys s1).log = (ops.foldl stepSys s2).log := by
  induction ops generalizing s1 s2 with
  | nil => exact ⟨ht, hl⟩
  | cons op ops ih =>
    obtain ⟨ht2, hl2⟩ := stepSys_indep s1 s2 op ht hl
    exact ih _ _ ht2 hl2

/-! ### Forall₂ helper -/

theorem forall2_map_self {α : Type} (R : α → α → Prop) (f : α → α) (l : List α)
    (h : ∀ x ∈ l, R x (f x)) : List.Forall₂ R l (l.map f) := by
  induction l with
  | nil => exact List.Forall₂.nil
  | cons a l ih =>
    exact List.Forall₂.cons (h a (by simp)) (ih (fun x hx => h x (by simp [hx])))

/-! ### Claims -/

/-- C1: the claim that a span started with a `parentSpanId` referencing a
registered span inherits that parent's `traceId` fails on the code: the
parent lookup at `Tracer.js` line 42 indexes the traces map — which is
keyed by trace identifiers — with the span identifier, so `startSpan`
throws a `TypeError` instead of creating the child.  Here the root span
with `spanId = "s0"` is registered (under trace key `"t0"`), and passing
`"s0"` as `parentSpanId` — exactly what the repository's own example does
at `Tracer.js` line 113 with `rootSpan.spanId` — throws rather than
yielding a child with `traceId = "t0"`. -/
theorem startSpan_parent_spanId_throws :
    ((runOps "svc" [TraceOp.start "root" none "t0" "s0" 0]).log.map Span.spanId = ["s0"])
    ∧ startSpan (runOps "svc" [TraceOp.start "root" none "t0" "s0" 0]).tracer
        "child" (some "s0") "t1" "s1" 1
      = Except.error "TypeError: cannot read properties of undefined" :=
  ⟨rfl, rfl⟩

/-- C2: `startSpan` with a truthy `parentSpanId` that is not a key of the
registry fails (the unguarded lookup at `Tracer.js` line 42 throws — the
condition the spec's taxonomy names `UnknownParent`) and the whole system
state, in particular the trace-identifier-to-span-sequence mapping, is
left unchanged: no span is appended and no new sequence is created. -/
theorem startSpan_unknownParent_noMutation (s : Sys) (name ftid fsid : String) (now : Nat)
    (parent : String) (hp : parent ≠ "")
    (h : getTraceJs s.tracer parent = none) :
    (∃ e, startSpan s.tracer name (some parent) ftid fsid now = Except.error e)
    ∧ stepSys s (TraceOp.start name (some parent) ftid fsid now) = s := by
  have herr : startSpan s.tracer name (some parent) ftid fsid now
      = Except.error "TypeError: cannot read properties of undefined" := by
    unfold startSpan resolveTraceId
    have htruthy : parentTruthy (some parent) = true := by
      simp [parentTruthy, hp]
    rw [htruthy]
    have hlk : List.lookup ((some parent).getD "") s.tracer.traces = none := h
    simp only [if_true, hlk]
  exact ⟨⟨_, herr⟩, by simp [stepSys, herr]⟩

/-- Witness for C2 at the spec's own example input `"does-not-exist"`. -/
theorem startSpan_unknownParent_noMutation_witness :
    (∃ e, startSpan (runOps "svc" []).tracer "child" (some "does-not-exist") "t0" "s0" 0
        = Except.error e)
    ∧ stepSys (runOps "svc" []) (TraceOp.start "child" (some "does-not-exist") "t0" "s0" 0)
      = runOps "svc" [] :=
  startSpan_unknownParent_noMutation (runOps "svc" []) "child" "t0" "s0" 0
    "does-not-exist" (by decide) (by decide)

/-- C3: the claim that an `endTime`, once set, is never changed by a second
`EndSpan` fails on the code: `endSpan` (`Tracer.js` lines 72-76) assigns
`endTime`, `status` and the merged attributes unconditionally, so ending
the same span again at clock reading 2 overwrites the `endTime` recorded
at clock reading 1 (and the terminal status). -/
theorem endSpan_double_overwrites :
    (endSpan sampleSpan 1 "OK" []).endTime = some 1
    ∧ (endSpan (endSpan sampleSpan 1 "OK" []) 2 "ERROR" []).endTime = some 2
    ∧ (endSpan (endSpan sampleSpan 1 "OK" []) 2 "ERROR" []).status = "ERROR" :=
  ⟨rfl, rfl, rfl⟩

/-- C4 counterexample: the claim says `GetTrace` of an unknown trace id
returns an empty sequence, but the JS variant returns
`this.traces[traceId]` which is `undefined` (`none`), not a sequence. -/
theorem getTrace_unknown_not_empty_seq :
    getTraceJs (newTracer "svc") "missing" = none
    ∧ ¬ getTraceJs (newTracer "svc") "missing" = some [] :=
  ⟨rfl, by decide⟩

/-- C4 (amended): `GetTrace` never signals an error; for a present trace
id both variants return the stored sequence (which equals the spans of
that trace in creation order); for an unknown trace id the Go variant
returns the nil slice — observationally the empty sequence — while the
JS variant returns `undefined` (`none`), in which case no stored span
carries that trace id. -/
theorem getTrace_unknown_amended (svc : String) (ops : List TraceOp) (tid : String) :
    getTraceGo (runOps svc ops).tracer tid
        = (runOps svc ops).log.filter (fun sp => sp.traceId == tid)
    ∧ (getTraceJs (runOps svc ops).tracer tid = none →
        (runOps svc ops).log.filter (fun sp => sp.traceId == tid) = [])
    ∧ (∀ l, getTraceJs (runOps svc ops).tracer tid = some l →
        l = (runOps svc ops).log.filter (fun sp => sp.traceId == tid)) := by
  obtain ⟨h1, _⟩ := sysInv_runOps svc ops tid
  refine ⟨h1, ?_, ?_⟩
  · intro hn
    rw [← h1]
    show (getTraceJs (runOps svc ops).tracer tid).getD [] = []
    rw [hn]
    simp
  · intro l hl
    rw [← h1]
    show l = (getTraceJs (runOps svc ops).tracer tid).getD []
    rw [hl]
    simp

/-- Witness for C4 (amended) on a fresh registry and unknown id. -/
theorem getTrace_unknown_amended_witness :
    getTraceGo (runOps "svc" []).tracer "missing" = [] := by
  have h := (getTrace_unknown_amended "svc" [] "missing").1
  simpa using h

/-- C5: ending a span merges the supplied attributes over the existing
ones: afterwards a key maps to the supplied value when the supplied
mapping contains it, and otherwise to its previous value — so the result
is exactly the right-biased union and no previously set key is removed. -/
theorem endSpan_merges_attributes (sp : Span) (now : Nat) (st : String)
    (attrs : List (String × String)) (k : String)
    (hnd : (attrs.map Prod.fst).Nodup) :
    List.lookup k (endSpan sp now st attrs).attributes =
      match List.lookup k attrs with
      | some v => some v
      | none => List.lookup k sp.attributes := by
  show List.lookup k (mergeAttrs sp.attributes attrs) = _
  exact lookup_mergeAttrs attrs hnd sp.attributes k

/-- Witness for C5: the spec's own example — attributes `a ↦ 1` before,
`EndSpan` with `b ↦ 2` — yields exactly `a ↦ 1, b ↦ 2`. -/
theorem endSpan_merges_attributes_witness :
    List.lookup "a" (endSpan sampleSpan 5 "OK" [("b", "2")]).attributes = some "1"
    ∧ List.lookup "b" (endSpan sampleSpan 5 "OK" [("b", "2")]).attributes = some "2"
    ∧ (endSpan sampleSpan 5 "OK" [("b", "2")]).attributes = [("a", "1"), ("b", "2")] :=
  ⟨(endSpan_merges_attributes sampleSpan 5 "OK" [("b", "2")] "a" (by decide)).trans
      (by decide),
    (endSpan_merges_attributes sampleSpan 5 "OK" [("b", "2")] "b" (by decide)).trans
      (by decide),
    by decide⟩

/-- C6: for every run of the registry, `GetTrace tid` returns exactly the
spans whose `traceId` field equals `tid` — the creation log filtered on
that trace id — in the exact order `startSpan` created them, and hence
never a span belonging to a different trace id. -/
theorem getTrace_creation_order (svc : String) (ops : List TraceOp) (tid : String) :
    getTraceGo (runOps svc ops).tracer tid
        = (runOps svc ops).log.filter (fun sp => sp.traceId == tid)
    ∧ ∀ sp, sp ∈ getTraceGo (runOps svc ops).tracer tid → sp.traceId = tid := by
  have h1 : getTraceGo (runOps svc ops).tracer tid
      = (runOps svc ops).log.filter (fun sp => sp.traceId == tid) :=
    (sysInv_runOps svc ops tid).1
  refine ⟨h1, ?_⟩
  intro sp hsp
  rw [h1] at hsp
  have := List.of_mem_filter hsp
  simpa using this

/-- Witness for C6: a run with two traces; the query returns the two
spans of trace `"t0"` in creation order and omits the span of `"u0"`. -/
theorem getTrace_creation_order_witness :
    getTraceGo (runOps "svc"
        [TraceOp.start "root" none "t0" "s0" 0,
          TraceOp.start "other" none "u0" "s1" 1,
          TraceOp.start "child" (some "t0") "tx" "s2" 2]).tracer "t0"
      = (runOps "svc"
        [TraceOp.start "root" none "t0" "s0" 0,
          TraceOp.start "other" none "u0" "s1" 1,
          TraceOp.start "child" (some "t0") "tx" "s2" 2]).log.filter
          (fun sp => sp.traceId == "t0") :=
  (getTrace_creation_order "svc"
    [TraceOp.start "root" none "t0" "s0" 0,
      TraceOp.start "other" none "u0" "s1" 1,
      TraceOp.start "child" (some "t0") "tx" "s2" 2] "t0").1

/-- C7: the identifier generator applied to the 16 bytes drawn from the
secure random source yields their lowercase hexadecimal encoding: a
32-character string over the alphabet `0-9a-f`. -/
theorem generateSecureId_hex (bytes : List Nat) (hlen : bytes.length = 16)
    (_hb : ∀ b ∈ bytes, b < 256) :
    (generateSecureId bytes).length = 32
    ∧ ∀ c ∈ (generateSecureId bytes).toList, c ∈ hexDigits := by
  constructor
  · show (hexEncode bytes).length = 32
    rw [length_hexEncode bytes, hlen]
  · intro c hc
    exact mem_foldr_hex bytes c hc

/-- Witness for C7 on sixteen concrete bytes. -/
theorem generateSecureId_hex_witness :
    sampleBytes.length = 16 ∧ (∀ b ∈ sampleBytes, b < 256)
    ∧ (generateSecureId sampleBytes).length = 32
    ∧ ∀ c ∈ (generateSecureId sampleBytes).toList, c ∈ hexDigits := by
  refine ⟨by decide, by decide, ?_, ?_⟩
  · exact (generateSecureId_hex sampleBytes (by decide) (by decide)).1
  · exact (generateSecureId_hex sampleBytes (by decide) (by decide)).2

/-- C8 (implicit keying of the parent lookup): when the `parentSpanId`
argument equals an existing key of the traces map — a trace identifier —
`startSpan` succeeds: the new span's `traceId` and `parentSpanId` both
equal that key and the span is appended to that trace's stored sequence. -/
theorem startSpan_traceKey_parent (svc : String) (ops : List TraceOp)
    (k name ftid fsid : String) (now : Nat) (l : List Span)
    (hk : k ≠ "") (h : getTraceJs (runOps svc ops).tracer k = some l) :
    ∃ sp t2, startSpan (runOps svc ops).tracer name (some k) ftid fsid now
        = Except.ok (sp, t2)
      ∧ sp.traceId = k ∧ sp.parentSpanId = some k
      ∧ getTraceJs t2 k = some (l ++ [sp]) := by
  obtain ⟨h1, h2⟩ := sysInv_runOps svc ops k
  have hne : l ≠ [] := h2 l h
  obtain ⟨s1, rest, rfl⟩ : ∃ s1 rest, l = s1 :: rest := by
    cases l with
    | nil => exact absurd rfl hne
    | cons a r => exact ⟨a, r, rfl⟩
  have hl1 : (getTraceJs (runOps svc ops).tracer k).getD [] = s1 :: rest := by
    rw [h]; rfl
  have hmem : s1 ∈ (runOps svc ops).log.filter (fun sp => sp.traceId == k) := by
    rw [← h1, hl1]
    exact List.mem_cons_self _ _
  have hs1 : s1.traceId = k := by
    have := List.of_mem_filter hmem
    simpa using this
  have hres : resolveTraceId (runOps svc ops).tracer.traces (some k) ftid
      = Except.ok k := by
    unfold resolveTraceId
    have htr : parentTruthy (some k) = true := by simp [parentTruthy, hk]
    rw [htr]
    have hlk : List.lookup ((some k).getD "") (runOps svc ops).tracer.traces
        = some (s1 :: rest) := h
    simp only [if_true, hlk, hs1]
  refine ⟨{ traceId := k
            spanId := fsid
            parentSpanId := some k
            name := name
            startTime := now
            endTime := none
            attributes := []
            status := "UNSET" },
    { (runOps svc ops).tracer with
      traces := pushSpan (runOps svc ops).tracer.traces k
        { traceId := k
          spanId := fsid
          parentSpanId := some k
          name := name
          startTime := now
          endTime := none
          attributes := []
          status := "UNSET" } },
    ?_, rfl, rfl, ?_⟩
  · unfold startSpan
    rw [hres]
  · show List.lookup k (pushSpan (runOps svc ops).tracer.traces k _) = _
    rw [lookup_pushSpan_self]
    have hlk2 : List.lookup k (runOps svc ops).tracer.traces = some (s1 :: rest) := h
    rw [hlk2]
    simp

/-- Witness for C8: after one root span under trace key `"t0"`, starting a
span with `parentSpanId = "t0"` (the map key) succeeds and appends. -/
theorem startSpan_traceKey_parent_witness :
    ∃ sp t2, startSpan (runOps "svc" [TraceOp.start "root" none "t0" "s0" 0]).tracer
        "child" (some "t0") "tx" "s1" 1 = Except.ok (sp, t2)
      ∧ sp.traceId = "t0" ∧ sp.parentSpanId = some "t0"
      ∧ getTraceJs t2 "t0" = some ([rootSample] ++ [sp]) :=
  startSpan_traceKey_parent "svc" [TraceOp.start "root" none "t0" "s0" 0]
    "t0" "child" "tx" "s1" 1 [rootSample] (by decide) (by decide)

/-- C9 (frame property of `endSpan` through the registry): the call keeps
the service name, the trace keys in order, and every sequence's length
and order; spans whose `spanId` differs from the handle are untouched,
and even the targeted span keeps its `traceId`, `spanId`, `parentSpanId`,
`name` and `startTime` — only `endTime`, `status` and `attributes` can
change. -/
theorem endSpanIn_frame (t : Tracer) (sid : String) (now : Nat) (st : String)
    (attrs : List (String × String)) :
    (endSpanIn t sid now st attrs).serviceName = t.serviceName
    ∧ (endSpanIn t sid now st attrs).traces.map Prod.fst = t.traces.map Prod.fst
    ∧ List.Forall₂ (fun (kv kv2 : String × List Span) =>
        kv2.1 = kv.1 ∧ List.Forall₂ (fun s s2 =>
          (¬ s.spanId = sid → s2 = s)
          ∧ s2.traceId = s.traceId ∧ s2.spanId = s.spanId
          ∧ s2.parentSpanId = s.parentSpanId ∧ s2.name = s.name
          ∧ s2.startTime = s.startTime) kv.2 kv2.2)
        t.traces (endSpanIn t sid now st attrs).traces := by
  refine ⟨rfl, ?_, ?_⟩
  · show (t.traces.map _).map Prod.fst = t.traces.map Prod.fst
    rw [List.map_map]
    apply List.map_congr_left
    intro kv _
    rfl
  · apply forall2_map_self
    intro kv _
    refine ⟨rfl, ?_⟩
    apply forall2_map_self
    intro s _
    by_cases h : s.spanId = sid
    · refine ⟨fun hc => absurd h hc, ?_, ?_, ?_, ?_, ?_⟩ <;> simp [h, endSpan]
    · have hif : (if s.spanId == sid then endSpan s now st attrs else s) = s := by
        simp [h]
      rw [hif]
      exact ⟨fun _ => rfl, rfl, rfl, rfl, rfl, rfl⟩

/-- Witness for C9: ending the root span of a one-span registry keeps the
trace keys. -/
theorem endSpanIn_frame_witness :
    (endSpanIn (runOps "svc" [TraceOp.start "root" none "t0" "s0" 0]).tracer
        "s0" 5 "OK" []).traces.map Prod.fst
      = (runOps "svc" [TraceOp.start "root" none "t0" "s0" 0]).tracer.traces.map
          Prod.fst :=
  (endSpanIn_frame (runOps "svc" [TraceOp.start "root" none "t0" "s0" 0]).tracer
    "s0" 5 "OK" []).2.1

/-- C10: the `serviceName` given to the constructor influences no
observable behaviour: identical operation sequences (with identical
clock and random-source inputs) against registries differing only in
service name produce identical stored traces, identical created spans,
identical `getTrace` answers and identical exported output. -/
theorem serviceName_noninterference (svc1 svc2 : String) (ops : List TraceOp) :
    (runOps svc1 ops).tracer.traces = (runOps svc2 ops).tracer.traces
    ∧ (runOps svc1 ops).log = (runOps svc2 ops).log
    ∧ (∀ tid, getTraceJs (runOps svc1 ops).tracer tid
        = getTraceJs (runOps svc2 ops).tracer tid)
    ∧ exportTraces (runOps svc1 ops).tracer = exportTraces (runOps svc2 ops).tracer := by
  obtain ⟨ht, hl⟩ := foldl_indep ops
    { tracer := newTracer svc1, log := [] } { tracer := newTracer svc2, log := [] }
    rfl rfl
  refine ⟨ht, hl, ?_, ?_⟩
  · intro tid
    show List.lookup tid (runOps svc1 ops).tracer.traces
      = List.lookup tid (runOps svc2 ops).tracer.traces
    rw [show (runOps svc1 ops).tracer.traces = (runOps svc2 ops).tracer.traces from ht]
  · show (runOps svc1 ops).tracer.traces = (runOps svc2 ops).tracer.traces
    exact ht
